import Mathlib

/-!
Verification of the instrumented Redis cache wrapper
(`0x02-redis_basic/exercise.py`) and the Mongo document helper
(`0x01-NoSQL/8-all.py`).

The Python program is shallowly embedded:

* Python byte strings are `List Nat` (each entry a byte value).
* The external Redis database is a finite map `String → Option RVal`
  together with a log of the mutating commands issued, so that the order
  of side effects is observable.  Counters are held as integers (the
  spec's `CallCounter`: a single integer per operation name); stored
  values are byte strings; history lists are lists of byte strings.
* Python exceptions are `Except RErr`.
* `uuid.uuid4()` is modelled by passing the generated fresh key as an
  explicit argument to `Cache.store`.
-/

/-- A byte string: the model of a Python `bytes` value. -/
abbrev Bytes := List Nat

/-- One UTF-8 encoded character (standard encoding by codepoint range). -/
def utf8EncodeChar (c : Char) : Bytes :=
  let n := c.toNat
  if n < 0x80 then [n]
  else if n < 0x800 then [0xc0 + n / 0x40, 0x80 + n % 0x40]
  else if n < 0x10000 then
    [0xe0 + n / 0x1000, 0x80 + (n / 0x40) % 0x40, 0x80 + n % 0x40]
  else
    [0xf0 + n / 0x40000, 0x80 + (n / 0x1000) % 0x40,
     0x80 + (n / 0x40) % 0x40, 0x80 + n % 0x40]

/-- UTF-8 encoding of a text value, as the redis client performs on `str`. -/
def utf8Encode (s : String) : Bytes :=
  s.data.foldr (fun c acc => utf8EncodeChar c ++ acc) []

/-- Value of a UTF-8 continuation byte, if the byte is one. -/
def contVal (b : Nat) : Option Nat :=
  if 0x80 ≤ b ∧ b < 0xc0 then some (b % 0x40) else none

/-- UTF-8 decoding to a character list; `none` on invalid input
(continuation errors, overlong forms, surrogates, out-of-range). -/
def utf8DecodeAux : List Nat → Option (List Char)
  | [] => some []
  | b0 :: rest =>
    if b0 < 0x80 then
      (utf8DecodeAux rest).map fun cs => Char.ofNat b0 :: cs
    else if b0 < 0xc2 then none
    else if b0 < 0xe0 then
      match rest with
      | b1 :: rest2 =>
        match contVal b1 with
        | some v1 =>
          (utf8DecodeAux rest2).map fun cs =>
            Char.ofNat ((b0 - 0xc0) * 0x40 + v1) :: cs
        | none => none
      | [] => none
    else if b0 < 0xf0 then
      match rest with
      | b1 :: b2 :: rest3 =>
        match contVal b1, contVal b2 with
        | some v1, some v2 =>
          let cp := (b0 - 0xe0) * 0x1000 + v1 * 0x40 + v2
          if 0x800 ≤ cp ∧ ¬ (0xd800 ≤ cp ∧ cp < 0xe000) then
            (utf8DecodeAux rest3).map fun cs => Char.ofNat cp :: cs
          else none
        | _, _ => none
      | _ => none
    else if b0 < 0xf5 then
      match rest with
      | b1 :: b2 :: b3 :: rest4 =>
        match contVal b1, contVal b2, contVal b3 with
        | some v1, some v2, some v3 =>
          let cp := (b0 - 0xf0) * 0x40000 + v1 * 0x1000 + v2 * 0x40 + v3
          if 0x10000 ≤ cp ∧ cp < 0x110000 then
            (utf8DecodeAux rest4).map fun cs => Char.ofNat cp :: cs
          else none
        | _, _, _ => none
      | _ => none
    else none

/-- Python `bytes.decode("utf-8")`: `none` models `UnicodeDecodeError`. -/
def utf8Decode (b : Bytes) : Option String :=
  (utf8DecodeAux b).map fun cs => ⟨cs⟩

/-- The single-quote character. -/
def sqChar : Char := Char.ofNat 39

/-- The double-quote character. -/
def dqChar : Char := Char.ofNat 34

/-- The backslash character. -/
def bslash : Char := Char.ofNat 92

/-- Lowercase hexadecimal digit. -/
def hexDigitChar (n : Nat) : Char :=
  if n < 10 then Char.ofNat (48 + n) else Char.ofNat (87 + n)

/-- A `\xhh` escape for one byte, as Python `repr` prints it. -/
def byteHexEscape (b : Nat) : List Char :=
  [bslash, 'x', hexDigitChar (b / 16 % 16), hexDigitChar (b % 16)]

/-- Quote character Python `repr` picks for a bytes object: single quote,
unless the data contains a single quote and no double quote. -/
def pyReprBytesQuote (b : Bytes) : Char :=
  if b.contains 39 ∧ ¬ b.contains 34 then dqChar else sqChar

/-- How Python `repr` renders one byte of a bytes object, given the chosen
quote: backslash escapes for backslash, tab, newline, carriage return and
the quote itself; printable ASCII literally; `\xhh` otherwise. -/
def pyReprByteChar (q : Char) (b : Nat) : List Char :=
  if b = 92 then [bslash, bslash]
  else if b = 9 then [bslash, 't']
  else if b = 10 then [bslash, 'n']
  else if b = 13 then [bslash, 'r']
  else if b = q.toNat then [bslash, q]
  else if 0x20 ≤ b ∧ b < 0x7f then [Char.ofNat b]
  else byteHexEscape b

/-- Python `repr` (and hence `str`) of a bytes object: `b` prefix, quote,
escaped content, quote. -/
def pyReprBytes (b : Bytes) : String :=
  let q := pyReprBytesQuote b
  ⟨'b' :: q :: b.foldr (fun x acc => pyReprByteChar q x ++ acc) [q]⟩

/-- Quote character Python `repr` picks for a text value. -/
def pyReprStrQuote (s : String) : Char :=
  if s.data.contains sqChar ∧ ¬ s.data.contains dqChar then dqChar else sqChar

/-- How Python `repr` renders one character of a text value, given the
chosen quote.  Codepoints at or above 0x80 are kept literal (Python keeps
printable ones; the Unicode printability table is not embedded here). -/
def pyReprStrChar (q : Char) (c : Char) : List Char :=
  if c = bslash then [bslash, bslash]
  else if c = Char.ofNat 9 then [bslash, 't']
  else if c = Char.ofNat 10 then [bslash, 'n']
  else if c = Char.ofNat 13 then [bslash, 'r']
  else if c = q then [bslash, q]
  else if c.toNat < 0x20 ∨ c.toNat = 0x7f then byteHexEscape c.toNat
  else [c]

/-- Python `repr` of a text value. -/
def pyReprStr (s : String) : String :=
  let q := pyReprStrQuote s
  ⟨q :: s.data.foldr (fun c acc => pyReprStrChar q c ++ acc) [q]⟩

/-- A value of the `Union[str, bytes, int, float]` type that `Cache.store`
accepts.  A floating-point value is identified by its decimal text
representation (`repr`), which is exactly what the store serializes and
what Python prints; no floating-point arithmetic occurs in the program. -/
inductive PyVal where
  | str (s : String)
  | bytes (b : Bytes)
  | int (n : Int)
  | float (r : String)
deriving DecidableEq

/-- Python `repr` of a supported value. -/
def pyReprVal : PyVal → String
  | .str s => pyReprStr s
  | .bytes b => pyReprBytes b
  | .int n => toString n
  | .float r => r

/-- `str(args)` for the one-element positional argument tuple `(data,)`
that the `call_history` wrapper records for `store`. -/
def strArgs (d : PyVal) : String :=
  "(" ++ pyReprVal d ++ ",)"

/-- The byte-string encoding the redis client applies before `SET`:
text is UTF-8 encoded, bytes pass through, an integer becomes its decimal
text, a float its `repr` text. -/
def encodeVal : PyVal → Bytes
  | .str s => utf8Encode s
  | .bytes b => b
  | .int n => utf8Encode (toString n)
  | .float r => utf8Encode r

/-- A Python object as seen by `Cache.get` and its callers: `None`, or a
value of one of the supported types. -/
inductive PyObj where
  | none
  | bytes (b : Bytes)
  | str (s : String)
  | int (n : Int)
  | float (r : String)
deriving DecidableEq

/-- The injection of a storable value into `PyObj`. -/
def PyVal.toObj : PyVal → PyObj
  | .str s => .str s
  | .bytes b => .bytes b
  | .int n => .int n
  | .float r => .float r

/-- Python `str()` of an object (only the cases the program can reach:
`str` of a bytes object is its `repr`). -/
def pyStr : PyObj → String
  | .none => "None"
  | .bytes b => pyReprBytes b
  | .str s => s
  | .int n => toString n
  | .float r => r

/-- A value held by the external key-value store: a byte string (from
`SET`), a counter (from `INCR` — the spec's `CallCounter`, a single
integer per operation name), or a list of byte strings (from `RPUSH`). -/
inductive RVal where
  | str (b : Bytes)
  | int (n : Int)
  | list (xs : List Bytes)
deriving DecidableEq

/-- A mutating command issued to the store, recorded so the order of side
effects is observable. -/
inductive Eff where
  | incr (k : String)
  | rpush (k : String) (v : Bytes)
  | set (k : String) (v : Bytes)
  | flushdb
deriving DecidableEq

/-- Errors raised by the store client or by Python builtins. -/
inductive RErr where
  | wrongType
  | notAnInteger
  | valueError
  | typeError
  | unicodeDecodeError
deriving DecidableEq

/-- The external store reachable at the default address: its database and
the log of mutating commands performed on it so far. -/
structure RSt where
  db : String → Option RVal
  log : List Eff

/-- Pointwise update of the database map. -/
def dbSet (f : String → Option RVal) (k : String) (v : RVal) :
    String → Option RVal :=
  fun q => if q = k then some v else f q

/-- `INCR key`: absent becomes 1; a counter is incremented; any other
value type is not a counter and errors. -/
def Redis.incr (s : RSt) (k : String) : Except RErr (Int × RSt) :=
  match s.db k with
  | none => .ok (1, ⟨dbSet s.db k (.int 1), s.log ++ [.incr k]⟩)
  | some (.int n) => .ok (n + 1, ⟨dbSet s.db k (.int (n + 1)), s.log ++ [.incr k]⟩)
  | some _ => .error .notAnInteger

/-- `SET key value`: overwrites whatever was there; always succeeds. -/
def Redis.set (s : RSt) (k : String) (v : Bytes) : RSt :=
  ⟨dbSet s.db k (.str v), s.log ++ [.set k v]⟩

/-- `RPUSH key value`: appends to the list at `key`, creating it when
absent; a non-list value gives a wrong-type error. -/
def Redis.rpush (s : RSt) (k : String) (v : Bytes) : Except RErr (Nat × RSt) :=
  match s.db k with
  | none => .ok (1, ⟨dbSet s.db k (.list [v]), s.log ++ [.rpush k v]⟩)
  | some (.list xs) =>
    .ok (xs.length + 1, ⟨dbSet s.db k (.list (xs ++ [v])), s.log ++ [.rpush k v]⟩)
  | some _ => .error .wrongType

/-- `GET key`: the byte string at `key`, `none` when absent (a counter
reads back as its decimal text, as the store keeps it); a list gives a
wrong-type error.  Read-only. -/
def Redis.get (s : RSt) (k : String) : Except RErr (Option Bytes) :=
  match s.db k with
  | none => .ok none
  | some (.str b) => .ok (some b)
  | some (.int n) => .ok (some (encodeVal (.int n)))
  | some (.list _) => .error .wrongType

/-- `LRANGE key 0 -1`: the whole list at `key`, `[]` when absent; a
non-list value gives a wrong-type error.  Read-only. -/
def Redis.lrange (s : RSt) (k : String) : Except RErr (List Bytes) :=
  match s.db k with
  | none => .ok []
  | some (.list xs) => .ok xs
  | some _ => .error .wrongType

/-- `FLUSHDB`: empties the database. -/
def Redis.flushdb (s : RSt) : RSt :=
  ⟨fun _ => none, s.log ++ [.flushdb]⟩

/-- `Cache.store.__qualname__`, the key of the call counter. -/
def storeQual : String := "Cache.store"

/-- The inputs-history list key built by `call_history`. -/
def inputsKey : String := storeQual ++ ":inputs"

/-- The outputs-history list key built by `call_history`. -/
def outputsKey : String := storeQual ++ ":outputs"

/-- `Cache.__init__`: creates the client for the default database and
flushes it. -/
def Cache.init (s : RSt) : RSt := Redis.flushdb s

/-- `Cache.store` as wrapped by `@count_calls` (outer) and
`@call_history` (inner): increment the counter at the qualified name,
push `str(args)` onto the inputs list, `SET` the fresh key to the encoded
data, push the key onto the outputs list, return the key.  The fresh
`uuid4` key is passed explicitly; the `isinstance` guards in both
wrappers are always true (`__init__` installs a real client). -/
def Cache.store (freshKey : String) (data : PyVal) (s : RSt) :
    Except RErr (String × RSt) :=
  match Redis.incr s storeQual with
  | .error e => .error e
  | .ok (_, s1) =>
    match Redis.rpush s1 inputsKey (utf8Encode (strArgs data)) with
    | .error e => .error e
    | .ok (_, s2) =>
      let s3 := Redis.set s2 freshKey (encodeVal data)
      match Redis.rpush s3 outputsKey (utf8Encode freshKey) with
      | .error e => .error e
      | .ok (_, s4) => .ok (freshKey, s4)

/-- The raw `GET` result as the Python caller sees it. -/
def toPyObj : Option Bytes → PyObj
  | none => .none
  | some b => .bytes b

/-- `Cache.get(key, fn=None)`: fetch the raw value; when a transform is
supplied it is applied to whatever was fetched (including the absent
marker), otherwise the raw value is returned unchanged. -/
def Cache.get (s : RSt) (key : String) (fn : Option (PyObj → PyObj)) :
    Except RErr PyObj :=
  match Redis.get s key with
  | .error e => .error e
  | .ok data =>
    match fn with
    | some f => .ok (f (toPyObj data))
    | none => .ok (toPyObj data)

/-- `Cache.get_str`: `self.get(key)` with no transform, then `None` stays
`None` and anything else goes through Python `str()`. -/
def Cache.get_str (s : RSt) (key : String) : Except RErr PyObj :=
  match Cache.get s key none with
  | .error e => .error e
  | .ok .none => .ok .none
  | .ok d => .ok (.str (pyStr d))

/-- Decimal digit byte test. -/
def isDigitByte (b : Nat) : Bool := decide (48 ≤ b ∧ b ≤ 57)

/-- ASCII whitespace byte test (the characters `int()` strips). -/
def isSpaceByte (b : Nat) : Bool :=
  decide (b = 32 ∨ b = 9 ∨ b = 10 ∨ b = 13 ∨ b = 11 ∨ b = 12)

/-- Value of a string of decimal digit bytes. -/
def digitsToNat (l : Bytes) : Nat :=
  l.foldl (fun a b => a * 10 + (b - 48)) 0

/-- Python `int()` on a byte string: optional surrounding whitespace,
optional sign, at least one digit (digit-group underscores are not
modelled); `none` models `ValueError`. -/
def pyIntOfBytes (b : Bytes) : Option Int :=
  let t := ((b.dropWhile isSpaceByte).reverse.dropWhile isSpaceByte).reverse
  match t with
  | [] => none
  | c :: rest =>
    if c = 45 then
      if rest ≠ [] ∧ rest.all isDigitByte then
        some (-(digitsToNat rest : Int))
      else none
    else if c = 43 then
      if rest ≠ [] ∧ rest.all isDigitByte then
        some ((digitsToNat rest : Int))
      else none
    else if t.all isDigitByte then some ((digitsToNat t : Int))
    else none

/-- The module-level `get_int(self, key)`: `self.get(key)` with no
transform, then `None` stays `None` and anything else goes through
`int()` (on the bytes the raw get yields; other shapes cannot reach this
point and are mapped to a type error like `int(None)` would raise). -/
def get_int (s : RSt) (key : String) : Except RErr (Option Int) :=
  match Cache.get s key none with
  | .error e => .error e
  | .ok .none => .ok none
  | .ok (.bytes b) =>
    match pyIntOfBytes b with
    | some n => .ok (some n)
    | none => .error .valueError
  | .ok _ => .error .typeError

/-- `bytes.decode("utf-8")` with the error it raises on invalid data. -/
def decodeOrErr (b : Bytes) : Except RErr String :=
  match utf8Decode b with
  | some s => .ok s
  | none => .error .unicodeDecodeError

/-- One line of `replay` output for a decoded input/output pair. -/
def replayLine (qual : String) (i o : String) : String :=
  qual ++ "(*" ++ i ++ ") -> " ++ o

/-- The loop body of `replay`: decode each recorded pair and format its
line; the first undecodable entry raises. -/
def replayLines (qual : String) : List (Bytes × Bytes) → Except RErr (List String)
  | [] => .ok []
  | p :: rest =>
    match utf8Decode p.1, utf8Decode p.2 with
    | some i, some o =>
      match replayLines qual rest with
      | .ok ls => .ok (replayLine qual i o :: ls)
      | .error e => .error e
    | _, _ => .error .unicodeDecodeError

/-- `replay(method)`: with a fresh client on the same database, read both
history lists in full, print the header that counts `len(inputs)`, then
one line per `zip`-pair.  The printed lines are returned together with
the (unchanged) store state. -/
def replay (qual : String) (s : RSt) : Except RErr (List String × RSt) :=
  match Redis.lrange s (qual ++ ":inputs") with
  | .error e => .error e
  | .ok inputs =>
    match Redis.lrange s (qual ++ ":outputs") with
    | .error e => .error e
    | .ok outputs =>
      let header := qual ++ " was called " ++ toString inputs.length ++ " times:"
      match replayLines qual (inputs.zip outputs) with
      | .error e => .error e
      | .ok rest => .ok (header :: rest, s)

/-- A document-store collection: its documents in iteration order. -/
structure MongoCollection (Doc : Type) where
  docs : List Doc

/-- `collection.find()`: a cursor over all documents in order. -/
def MongoCollection.find {Doc : Type} (c : MongoCollection Doc) : List Doc :=
  c.docs

/-- `list_all(mongo_collection)`: `list(mongo_collection.find())`. -/
def list_all {Doc : Type} (c : MongoCollection Doc) : List Doc :=
  c.find

deriving instance DecidableEq for Except

/-- The empty store: no keys, no commands issued yet. -/
def emptyRSt : RSt := ⟨fun _ => none, []⟩

/-- The counter value the store holds for `Cache.store` (0 when unset). -/
def counterOf (s : RSt) : Int :=
  match s.db storeQual with
  | some (.int n) => n
  | _ => 0

/-- The inputs-history list for `Cache.store` ([] when unset). -/
def inputsOf (s : RSt) : List Bytes :=
  match s.db inputsKey with
  | some (.list xs) => xs
  | _ => []

/-- The outputs-history list for `Cache.store` ([] when unset). -/
def outputsOf (s : RSt) : List Bytes :=
  match s.db outputsKey with
  | some (.list xs) => xs
  | _ => []

/-- The key is absent or holds a counter. -/
def CtrOk (v : Option RVal) : Prop := v = none ∨ ∃ n, v = some (RVal.int n)

/-- The key is absent or holds a list. -/
def ListOk (v : Option RVal) : Prop := v = none ∨ ∃ xs, v = some (RVal.list xs)

/-- The three instrumentation keys hold values of their expected shapes
(true of every state the program can reach from `Cache.init`). -/
def WF (s : RSt) : Prop :=
  CtrOk (s.db storeQual) ∧ ListOk (s.db inputsKey) ∧ ListOk (s.db outputsKey)

/-- A generated value key does not collide with the three
instrumentation keys (true of every `uuid4` string, whose shape
`xxxxxxxx-xxxx-…` none of the three fixed names has). -/
def FreshKey (k : String) : Prop :=
  k ≠ storeQual ∧ k ≠ inputsKey ∧ k ≠ outputsKey

@[simp] theorem inputsKey_ne_storeQual : inputsKey = storeQual ↔ False := by decide

@[simp] theorem outputsKey_ne_storeQual : outputsKey = storeQual ↔ False := by decide

@[simp] theorem outputsKey_ne_inputsKey : outputsKey = inputsKey ↔ False := by decide

@[simp] theorem dbSet_apply_eq (f : String → Option RVal) (k : String) (v : RVal) :
    dbSet f k v k = some v := by simp [dbSet]

theorem dbSet_apply_ne (f : String → Option RVal) (k : String) (v : RVal)
    (q : String) (h : ¬ q = k) : dbSet f k v q = f q := by simp [dbSet, h]

/-- What one wrapped `Cache.store` call does to a well-formed state: it
succeeds, bumps the counter, appends `str(args)` to the inputs list, sets
the fresh key to the encoding, appends the key to the outputs list, and
issues exactly those four commands in that order. -/
theorem store_eq (s : RSt) (k : String) (d : PyVal) (hWF : WF s) (hk : FreshKey k) :
    Cache.store k d s = .ok (k,
      ⟨dbSet (dbSet (dbSet (dbSet s.db storeQual (.int (counterOf s + 1)))
              inputsKey (.list (inputsOf s ++ [utf8Encode (strArgs d)])))
          k (.str (encodeVal d)))
        outputsKey (.list (outputsOf s ++ [utf8Encode k])),
       s.log ++ [.incr storeQual, .rpush inputsKey (utf8Encode (strArgs d)),
                 .set k (encodeVal d), .rpush outputsKey (utf8Encode k)]⟩) := by
  obtain ⟨hc, hi, ho⟩ := hWF
  obtain ⟨hk1, hk2, hk3⟩ := hk
  have hk1' : ¬ (k = storeQual) := hk1
  have e1 : dbSet s.db storeQual (.int (counterOf s + 1)) inputsKey = s.db inputsKey :=
    dbSet_apply_ne _ _ _ _ (by decide)
  rcases hc with hc | ⟨n, hc⟩ <;> rcases hi with hi | ⟨xs, hi⟩ <;>
    rcases ho with ho | ⟨ys, ho⟩ <;>
    simp [Cache.store, Redis.incr, Redis.rpush, Redis.set, counterOf, inputsOf, outputsOf,
      hc, hi, ho, e1, dbSet_apply_ne, Ne.symm hk2, Ne.symm hk3, hk1']

/-- The four commands one `store` call issues, in order. -/
def storeTrace (k : String) (d : PyVal) : List Eff :=
  [.incr storeQual, .rpush inputsKey (utf8Encode (strArgs d)),
   .set k (encodeVal d), .rpush outputsKey (utf8Encode k)]

@[simp] theorem storeQual_ne_inputsKey : storeQual = inputsKey ↔ False := by decide

@[simp] theorem storeQual_ne_outputsKey : storeQual = outputsKey ↔ False := by decide

@[simp] theorem inputsKey_ne_outputsKey : inputsKey = outputsKey ↔ False := by decide

/-- Observable effect of one `store` call on the counter, the two history
lists, the stored value and the command log; well-formedness is
preserved. -/
theorem store_state_spec (s : RSt) (k : String) (d : PyVal)
    (hWF : WF s) (hk : FreshKey k) :
    ∃ s', Cache.store k d s = .ok (k, s') ∧
      counterOf s' = counterOf s + 1 ∧
      inputsOf s' = inputsOf s ++ [utf8Encode (strArgs d)] ∧
      outputsOf s' = outputsOf s ++ [utf8Encode k] ∧
      s'.db k = some (.str (encodeVal d)) ∧
      s'.log = s.log ++ storeTrace k d ∧
      WF s' := by
  obtain ⟨hk1, hk2, hk3⟩ := hk
  refine ⟨_, store_eq s k d hWF ⟨hk1, hk2, hk3⟩, ?_, ?_, ?_, ?_, rfl, ?_⟩
  · simp [counterOf, dbSet, Ne.symm hk1]
  · simp [inputsOf, dbSet, Ne.symm hk2]
  · simp [outputsOf, dbSet]
  · simp [dbSet, hk3]
  · refine ⟨?_, ?_, ?_⟩
    · simp only [CtrOk]
      simp [dbSet, Ne.symm hk1]
    · simp only [ListOk]
      simp [dbSet, Ne.symm hk2]
    · simp only [ListOk]
      simp [dbSet]

/-- `storeN [(k₁,d₁), …, (kₙ,dₙ)] s`: call the instrumented `store` once
per listed (fresh key, value) pair, left to right, propagating errors as
Python exceptions do. -/
def storeN : List (String × PyVal) → RSt → Except RErr RSt
  | [], s => .ok s
  | (k, d) :: rest, s =>
    match Cache.store k d s with
    | .error e => .error e
    | .ok (_, s') => storeN rest s'

/-- Observable effect of N `store` calls from any well-formed state:
all succeed, the counter rises by exactly N, and the two history lists
each gain the N per-call records in call order. -/
theorem storeN_spec (L : List (String × PyVal)) (s : RSt)
    (hWF : WF s) (hL : ∀ p ∈ L, FreshKey p.1) :
    ∃ s', storeN L s = .ok s' ∧
      counterOf s' = counterOf s + L.length ∧
      inputsOf s' = inputsOf s ++ L.map (fun p => utf8Encode (strArgs p.2)) ∧
      outputsOf s' = outputsOf s ++ L.map (fun p => utf8Encode p.1) ∧
      WF s' := by
  induction L generalizing s with
  | nil => exact ⟨s, rfl, by simp, by simp, by simp, hWF⟩
  | cons p rest ih =>
    obtain ⟨k, d⟩ := p
    obtain ⟨s1, hstep, hc1, hi1, ho1, hdb1, hlog1, hWF1⟩ :=
      store_state_spec s k d hWF (hL ⟨k, d⟩ (List.mem_cons_self _ _))
    obtain ⟨s', hrun, hc, hi, ho, hWF'⟩ :=
      ih s1 hWF1 (fun q hq => hL q (List.mem_cons_of_mem _ hq))
    refine ⟨s', ?_, ?_, ?_, ?_, hWF'⟩
    · rw [storeN, hstep]
      exact hrun
    · rw [hc, hc1, List.length_cons]
      omega
    · rw [hi, hi1]
      simp
    · rw [ho, ho1]
      simp

/-- The store state after `store("bar")` with fresh key `k1` on a fresh
cache (used to exhibit the failure of the untransformed round trip). -/
def c1State : RSt :=
  match Cache.store "k1" (PyVal.str "bar") (Cache.init emptyRSt) with
  | .ok (_, s) => s
  | .error _ => emptyRSt

/-- C1 fails as stated: storing the text value "bar" and fetching it with
no transform yields the byte string b"bar", which is not equal to the
text value "bar". -/
theorem store_then_get_text_not_identity :
    Cache.store "k1" (PyVal.str "bar") (Cache.init emptyRSt) = .ok ("k1", c1State) ∧
    Cache.get c1State "k1" none = .ok (PyObj.bytes (utf8Encode "bar")) ∧
    Cache.get c1State "k1" none ≠ .ok ((PyVal.str "bar").toObj) :=
  ⟨rfl, by decide, by decide⟩

/-- C1 (amended): for every supported value V, get with no transform on
the key returned by store yields the byte-string encoding of V; this
equals V itself exactly when V is a byte sequence. -/
theorem store_then_get_returns_encoding (s : RSt) (k : String) (d : PyVal)
    (hWF : WF s) (hk : FreshKey k) :
    ∃ s', Cache.store k d s = .ok (k, s') ∧
      Cache.get s' k none = .ok (PyObj.bytes (encodeVal d)) ∧
      (∀ b, d = PyVal.bytes b → PyObj.bytes (encodeVal d) = d.toObj) := by
  obtain ⟨s', hstore, _, _, _, hdb, _, _⟩ := store_state_spec s k d hWF hk
  refine ⟨s', hstore, ?_, ?_⟩
  · simp [Cache.get, Redis.get, hdb, toPyObj]
  · rintro b rfl
    rfl

theorem store_then_get_returns_encoding_witness :
    WF (Cache.init emptyRSt) ∧ FreshKey "a1b2" ∧
    (∃ s', Cache.store "a1b2" (PyVal.bytes [102, 111, 111]) (Cache.init emptyRSt) =
        .ok ("a1b2", s') ∧
      Cache.get s' "a1b2" none =
        .ok (PyObj.bytes (encodeVal (PyVal.bytes [102, 111, 111]))) ∧
      (∀ b, PyVal.bytes [102, 111, 111] = PyVal.bytes b →
        PyObj.bytes (encodeVal (PyVal.bytes [102, 111, 111])) =
          (PyVal.bytes [102, 111, 111]).toObj)) :=
  ⟨⟨Or.inl rfl, Or.inl rfl, Or.inl rfl⟩, ⟨by decide, by decide, by decide⟩,
   store_then_get_returns_encoding _ _ _
     ⟨Or.inl rfl, Or.inl rfl, Or.inl rfl⟩ ⟨by decide, by decide, by decide⟩⟩

/-- C2: for every supported value V and transform F, get with transform F
on the key returned by store yields F applied to the store's byte-string
encoding of V. -/
theorem get_with_transform_applies_fn (s : RSt) (k : String) (d : PyVal)
    (F : PyObj → PyObj) (hWF : WF s) (hk : FreshKey k) :
    ∃ s', Cache.store k d s = .ok (k, s') ∧
      Cache.get s' k (some F) = .ok (F (PyObj.bytes (encodeVal d))) := by
  obtain ⟨s', hstore, _, _, _, hdb, _, _⟩ := store_state_spec s k d hWF hk
  refine ⟨s', hstore, ?_⟩
  simp [Cache.get, Redis.get, hdb, toPyObj]

theorem get_with_transform_applies_fn_witness :
    WF (Cache.init emptyRSt) ∧ FreshKey "a1b2" ∧
    (∃ s', Cache.store "a1b2" (PyVal.int 123) (Cache.init emptyRSt) = .ok ("a1b2", s') ∧
      Cache.get s' "a1b2" (some (fun o => o)) =
        .ok ((fun (o : PyObj) => o) (PyObj.bytes (encodeVal (PyVal.int 123))))) :=
  ⟨⟨Or.inl rfl, Or.inl rfl, Or.inl rfl⟩, ⟨by decide, by decide, by decide⟩,
   get_with_transform_applies_fn _ _ _ _
     ⟨Or.inl rfl, Or.inl rfl, Or.inl rfl⟩ ⟨by decide, by decide, by decide⟩⟩

/-- C3: N calls of the instrumented store raise the call counter kept
under the operation's qualified name by exactly N (each call adds one),
from any well-formed starting state. -/
theorem store_counter_increments_by_n (L : List (String × PyVal)) (s : RSt)
    (hWF : WF s) (hL : ∀ p ∈ L, FreshKey p.1) :
    ∃ s', storeN L s = .ok s' ∧ counterOf s' = counterOf s + L.length := by
  obtain ⟨s', hrun, hc, _, _, _⟩ := storeN_spec L s hWF hL
  exact ⟨s', hrun, hc⟩

theorem store_counter_increments_by_n_witness :
    WF (Cache.init emptyRSt) ∧
    (∀ p ∈ [("k1", PyVal.str "a"), ("k2", PyVal.int 5)], FreshKey p.1) ∧
    (∃ s', storeN [("k1", PyVal.str "a"), ("k2", PyVal.int 5)] (Cache.init emptyRSt) = .ok s' ∧
      counterOf s' = counterOf (Cache.init emptyRSt) +
        ([("k1", PyVal.str "a"), ("k2", PyVal.int 5)] : List (String × PyVal)).length) :=
  ⟨⟨Or.inl rfl, Or.inl rfl, Or.inl rfl⟩,
   by
     intro p hp
     rcases List.mem_cons.mp hp with rfl | hp
     · exact ⟨by decide, by decide, by decide⟩
     · rcases List.mem_singleton.mp hp with rfl
       exact ⟨by decide, by decide, by decide⟩,
   store_counter_increments_by_n _ _ ⟨Or.inl rfl, Or.inl rfl, Or.inl rfl⟩
     (by
       intro p hp
       rcases List.mem_cons.mp hp with rfl | hp
       · exact ⟨by decide, by decide, by decide⟩
       · rcases List.mem_singleton.mp hp with rfl
         exact ⟨by decide, by decide, by decide⟩)⟩

/-- C5: each store invocation issues exactly these commands in this
order — increment the "Cache.store" counter, append str(args) to the
inputs list, SET the key to the encoded value, append the key to the
outputs list — and returns the key. -/
theorem store_side_effects_ordered (s : RSt) (k : String) (d : PyVal)
    (hWF : WF s) (hk : FreshKey k) :
    ∃ s', Cache.store k d s = .ok (k, s') ∧
      s'.log = s.log ++
        [Eff.incr storeQual, Eff.rpush inputsKey (utf8Encode (strArgs d)),
         Eff.set k (encodeVal d), Eff.rpush outputsKey (utf8Encode k)] := by
  obtain ⟨s', hstore, _, _, _, _, hlog, _⟩ := store_state_spec s k d hWF hk
  exact ⟨s', hstore, hlog⟩

theorem store_side_effects_ordered_witness :
    WF (Cache.init emptyRSt) ∧ FreshKey "a1b2" ∧
    (∃ s', Cache.store "a1b2" (PyVal.str "x") (Cache.init emptyRSt) = .ok ("a1b2", s') ∧
      s'.log = (Cache.init emptyRSt).log ++
        [Eff.incr storeQual,
         Eff.rpush inputsKey (utf8Encode (strArgs (PyVal.str "x"))),
         Eff.set "a1b2" (encodeVal (PyVal.str "x")),
         Eff.rpush outputsKey (utf8Encode "a1b2")]) :=
  ⟨⟨Or.inl rfl, Or.inl rfl, Or.inl rfl⟩, ⟨by decide, by decide, by decide⟩,
   store_side_effects_ordered _ _ _
     ⟨Or.inl rfl, Or.inl rfl, Or.inl rfl⟩ ⟨by decide, by decide, by decide⟩⟩

/-- C8 fails as stated: on an absent key, get with a transform returns
the transform's value at the absent marker, which need not be absent. -/
theorem get_absent_with_transform_not_none :
    emptyRSt.db "missing" = none ∧
    Cache.get emptyRSt "missing" (some (fun _ => PyObj.int 0)) ≠ .ok PyObj.none :=
  ⟨rfl, by decide⟩

/-- C8 (amended): on an absent key, get with no transform returns the
absent marker and raises no error; get with a transform F returns
F applied to the absent marker (and raises no error for any total F),
which is absent exactly when F maps the absent marker to it. -/
theorem get_absent_key_behavior (s : RSt) (k : String) (F : PyObj → PyObj)
    (h : s.db k = none) :
    Cache.get s k none = .ok PyObj.none ∧
    Cache.get s k (some F) = .ok (F PyObj.none) := by
  constructor <;> simp [Cache.get, Redis.get, h, toPyObj]

theorem get_absent_key_behavior_witness :
    emptyRSt.db "missing" = none ∧
    (Cache.get emptyRSt "missing" none = .ok PyObj.none ∧
     Cache.get emptyRSt "missing" (some (fun o => o)) = .ok ((fun (o : PyObj) => o) PyObj.none)) :=
  ⟨rfl, get_absent_key_behavior _ _ _ rfl⟩

/-- C9: constructing a Cache flushes the backing database — after init,
every key whatsoever (stored values, counters, history lists, whoever
wrote them) reads back as absent. -/
theorem cache_init_flushes_database (s : RSt) (k : String) :
    (Cache.init s).db k = none := rfl

/-- C10: list_all returns exactly the documents produced by the
collection's find(), in order, and the empty list (not an error or an
absent value) on a collection with no documents. -/
theorem list_all_returns_documents (Doc : Type) (c : MongoCollection Doc) :
    list_all c = c.find ∧ list_all (⟨[]⟩ : MongoCollection Doc) = [] :=
  ⟨rfl, rfl⟩

/-- C4: after N successful instrumented store calls on a fresh cache, the
inputs and outputs history lists each have length N, and entry i holds,
respectively, str(args) of call i and the key returned by call i. -/
theorem history_lists_record_calls (s : RSt) (L : List (String × PyVal))
    (hL : ∀ p ∈ L, FreshKey p.1) :
    ∃ s', storeN L (Cache.init s) = .ok s' ∧
      inputsOf s' = L.map (fun p => utf8Encode (strArgs p.2)) ∧
      outputsOf s' = L.map (fun p => utf8Encode p.1) ∧
      (inputsOf s').length = L.length ∧
      (outputsOf s').length = L.length := by
  obtain ⟨s', hrun, _, hi, ho, _⟩ := storeN_spec L (Cache.init s)
    ⟨Or.inl rfl, Or.inl rfl, Or.inl rfl⟩ hL
  have hi0 : inputsOf (Cache.init s) = [] := rfl
  have ho0 : outputsOf (Cache.init s) = [] := rfl
  rw [hi0, List.nil_append] at hi
  rw [ho0, List.nil_append] at ho
  exact ⟨s', hrun, hi, ho, by rw [hi, List.length_map], by rw [ho, List.length_map]⟩

theorem history_lists_record_calls_witness :
    (∀ p ∈ [("k1", PyVal.str "foo")], FreshKey p.1) ∧
    (∃ s', storeN [("k1", PyVal.str "foo")] (Cache.init emptyRSt) = .ok s' ∧
      inputsOf s' = [("k1", PyVal.str "foo")].map (fun p => utf8Encode (strArgs p.2)) ∧
      outputsOf s' = [("k1", PyVal.str "foo")].map (fun p => utf8Encode p.1) ∧
      (inputsOf s').length = [("k1", PyVal.str "foo")].length ∧
      (outputsOf s').length = [("k1", PyVal.str "foo")].length) :=
  ⟨by
     intro p hp
     rcases List.mem_singleton.mp hp with rfl
     exact ⟨by decide, by decide, by decide⟩,
   history_lists_record_calls emptyRSt _
     (by
       intro p hp
       rcases List.mem_singleton.mp hp with rfl
       exact ⟨by decide, by decide, by decide⟩)⟩

/-- The store state after `store("foo")` with fresh key `k6` on a fresh
cache (used to exhibit what get_str actually returns). -/
def c6State : RSt :=
  match Cache.store "k6" (PyVal.str "foo") (Cache.init emptyRSt) with
  | .ok (_, s) => s
  | .error _ => emptyRSt

/-- C6 fails as stated: after storing the text "foo", get_str does not
return the stored value decoded to text ("foo"); it returns Python
str() of the raw bytes object, i.e. its repr with the b prefix. -/
theorem get_str_not_decoded_text :
    Cache.store "k6" (PyVal.str "foo") (Cache.init emptyRSt) = .ok ("k6", c6State) ∧
    Cache.get_str c6State "k6" = .ok (PyObj.str (pyReprBytes (utf8Encode "foo"))) ∧
    Cache.get_str c6State "k6" ≠ .ok (PyObj.str "foo") :=
  ⟨rfl, by decide, by decide⟩

/-- C6 (amended): for every present key, get_str returns Python str() of
the raw bytes (the repr text with the b prefix, not the utf-8 decoding);
get_int returns the raw bytes parsed as an integer whenever they parse
as one; for an absent key each returns the absent marker. -/
theorem get_str_and_get_int_behavior (s : RSt) (k k0 : String) (b : Bytes)
    (hb : s.db k = some (RVal.str b)) (h0 : s.db k0 = none) :
    Cache.get_str s k = .ok (PyObj.str (pyReprBytes b)) ∧
    (∀ n, pyIntOfBytes b = some n → get_int s k = .ok (some n)) ∧
    Cache.get_str s k0 = .ok PyObj.none ∧
    get_int s k0 = .ok none := by
  refine ⟨?_, ?_, ?_, ?_⟩
  · simp [Cache.get_str, Cache.get, Redis.get, hb, toPyObj, pyStr]
  · intro n hn
    simp [get_int, Cache.get, Redis.get, hb, hn, toPyObj]
  · simp [Cache.get_str, Cache.get, Redis.get, h0, toPyObj]
  · simp [get_int, Cache.get, Redis.get, h0, toPyObj]

/-- A store holding the text encoding of "foo" under one key and of
"123" under another (used only to instantiate the C6 theorem). -/
def c6s : RSt :=
  ⟨fun q =>
    if q = "keyF" then some (RVal.str (utf8Encode "foo"))
    else if q = "keyN" then some (RVal.str (utf8Encode "123"))
    else none, []⟩

theorem get_str_and_get_int_behavior_witness :
    c6s.db "keyF" = some (RVal.str (utf8Encode "foo")) ∧
    c6s.db "keyN" = some (RVal.str (utf8Encode "123")) ∧
    c6s.db "nope" = none ∧
    (Cache.get_str c6s "keyF" = .ok (PyObj.str (pyReprBytes (utf8Encode "foo"))) ∧
     (∀ n, pyIntOfBytes (utf8Encode "foo") = some n → get_int c6s "keyF" = .ok (some n)) ∧
     Cache.get_str c6s "nope" = .ok PyObj.none ∧
     get_int c6s "nope" = .ok none) ∧
    pyIntOfBytes (utf8Encode "123") = some 123 ∧
    get_int c6s "keyN" = .ok (some 123) :=
  ⟨by decide, by decide, by decide,
   get_str_and_get_int_behavior c6s "keyF" "nope" (utf8Encode "foo") (by decide) (by decide),
   by decide,
   (get_str_and_get_int_behavior c6s "keyN" "nope" (utf8Encode "123")
     (by decide) (by decide)).2.1 123 (by decide)⟩

/-- The decode-and-format loop succeeds and yields one line per pair when
every recorded entry decodes. -/
theorem replayLines_ok (qual : String) (l : List (Bytes × Bytes))
    (h : ∀ p ∈ l, (utf8Decode p.1).isSome ∧ (utf8Decode p.2).isSome) :
    replayLines qual l = .ok (l.map (fun p =>
      replayLine qual ((utf8Decode p.1).getD "") ((utf8Decode p.2).getD ""))) := by
  induction l with
  | nil => rfl
  | cons p rest ih =>
    obtain ⟨h1, h2⟩ := h p (List.mem_cons_self _ _)
    obtain ⟨i, hi⟩ := Option.isSome_iff_exists.mp h1
    obtain ⟨o, ho⟩ := Option.isSome_iff_exists.mp h2
    rw [replayLines, hi, ho, ih (fun q hq => h q (List.mem_cons_of_mem _ hq))]
    simp [hi, ho]

/-- C7: for any state of the two history lists whose entries decode as
text, replay returns (to print) the header naming the operation and the
inputs-list length, followed by one formatted line per positionally
zipped pair — exactly min(len inputs, len outputs) of them — and leaves
the store unchanged. -/
theorem replay_prints_header_and_pairs (s : RSt) (I O : List Bytes)
    (hI : Redis.lrange s inputsKey = .ok I)
    (hO : Redis.lrange s outputsKey = .ok O)
    (hdI : ∀ b ∈ I, (utf8Decode b).isSome)
    (hdO : ∀ b ∈ O, (utf8Decode b).isSome) :
    replay storeQual s =
      .ok ((storeQual ++ " was called " ++ toString I.length ++ " times:") ::
        (I.zip O).map (fun p =>
          replayLine storeQual ((utf8Decode p.1).getD "") ((utf8Decode p.2).getD "")), s) ∧
    ((I.zip O).map (fun p =>
        replayLine storeQual ((utf8Decode p.1).getD "") ((utf8Decode p.2).getD ""))).length =
      min I.length O.length := by
  have hzip : ∀ p ∈ I.zip O, (utf8Decode p.1).isSome ∧ (utf8Decode p.2).isSome := by
    intro p hp
    obtain ⟨a, b⟩ := p
    obtain ⟨h1, h2⟩ := List.of_mem_zip hp
    exact ⟨hdI _ h1, hdO _ h2⟩
  have e1 : Redis.lrange s (storeQual ++ ":inputs") = .ok I := hI
  have e2 : Redis.lrange s (storeQual ++ ":outputs") = .ok O := hO
  constructor
  · simp [replay, e1, e2, replayLines_ok storeQual _ hzip]
  · rw [List.length_map, List.length_zip]

theorem replay_prints_header_and_pairs_witness :
    Redis.lrange (RSt.mk (fun q =>
        if q = inputsKey then some (RVal.list [utf8Encode "(1,)"])
        else if q = outputsKey then some (RVal.list [utf8Encode "kA", utf8Encode "kB"])
        else none) []) inputsKey = .ok [utf8Encode "(1,)"] ∧
    Redis.lrange (RSt.mk (fun q =>
        if q = inputsKey then some (RVal.list [utf8Encode "(1,)"])
        else if q = outputsKey then some (RVal.list [utf8Encode "kA", utf8Encode "kB"])
        else none) []) outputsKey = .ok [utf8Encode "kA", utf8Encode "kB"] ∧
    (replay storeQual (RSt.mk (fun q =>
        if q = inputsKey then some (RVal.list [utf8Encode "(1,)"])
        else if q = outputsKey then some (RVal.list [utf8Encode "kA", utf8Encode "kB"])
        else none) []) =
      .ok ((storeQual ++ " was called " ++ toString ([utf8Encode "(1,)"] : List Bytes).length ++ " times:") ::
        (([utf8Encode "(1,)"] : List Bytes).zip ([utf8Encode "kA", utf8Encode "kB"] : List Bytes)).map
          (fun p => replayLine storeQual ((utf8Decode p.1).getD "") ((utf8Decode p.2).getD "")),
        RSt.mk (fun q =>
          if q = inputsKey then some (RVal.list [utf8Encode "(1,)"])
          else if q = outputsKey then some (RVal.list [utf8Encode "kA", utf8Encode "kB"])
          else none) []) ∧
     ((([utf8Encode "(1,)"] : List Bytes).zip ([utf8Encode "kA", utf8Encode "kB"] : List Bytes)).map
        (fun p => replayLine storeQual ((utf8Decode p.1).getD "") ((utf8Decode p.2).getD ""))).length =
       min ([utf8Encode "(1,)"] : List Bytes).length ([utf8Encode "kA", utf8Encode "kB"] : List Bytes).length) :=
  ⟨by decide, by decide,
   replay_prints_header_and_pairs _ _ _ (by decide) (by decide)
     (by
       intro b hb
       rcases List.mem_singleton.mp hb with rfl
       decide)
     (by
       intro b hb
       rcases List.mem_cons.mp hb with rfl | hb
       · decide
       · rcases List.mem_singleton.mp hb with rfl
         decide)⟩
